import Mathlib

/-!
A shallow embedding of the orchestration and agent-routing core of the
spike-ai repository (TypeScript), covering:

* the JavaScript value model needed by the SEO agent's in-memory data
  operations (loose equality, numeric coercion via parseFloat/ToNumber,
  string coercion, relational comparison),
* SEOAgent.executeDataOperations (filter / group / sort / limit),
* AnalyticsAgent.validateFields and AnalyticsAgent.processQuery,
* SEOAgent.processQuery,
* Orchestrator.detectIntent fallback and Orchestrator.routeToBoth,
* LiteLLMClient.chat retry loop.

Effectful steps that call external services (the LLM gateway, the GA4 API,
Google Sheets) are modelled as oracle parameters returning Except values;
the control flow around them is translated from the source.  JavaScript
numbers are modelled as exact decimal fractions mant / 10 ^ exp (the data
flow never performs float arithmetic: numbers only arise from decimal
literals in JSON and from parseFloat, and are only compared); exponent and
hexadecimal numeric literal forms and the Infinity token are outside the
modelled subset of parseFloat/ToNumber, and string order is by Unicode
scalar value (JavaScript uses UTF-16 code units, which agrees on the BMP).
-/

namespace SpikeAI

/-- A JavaScript number as an exact decimal fraction: value is
mant / 10 ^ exp.  The representation is not canonical; comparisons
cross-multiply. -/
structure JsNum where
  mant : Int
  exp : Nat
deriving DecidableEq

/-- Value equality of two decimal fractions. -/
def JsNum.eqv (a b : JsNum) : Bool :=
  a.mant * (10 : Int) ^ b.exp = b.mant * (10 : Int) ^ a.exp

/-- Value order of two decimal fractions. -/
def JsNum.lt (a b : JsNum) : Bool :=
  a.mant * (10 : Int) ^ b.exp < b.mant * (10 : Int) ^ a.exp

/-- A whole number as a decimal fraction. -/
def JsNum.ofInt (n : Int) : JsNum := ⟨n, 0⟩

/-- JavaScript runtime values as they occur in the SEO agent's rows and
plans: strings (sheet cells), numbers (JSON plan values), booleans, null
(JSON), and undefined (absent object properties). -/
inductive JsValue where
  | str : String → JsValue
  | num : JsNum → JsValue
  | bool : Bool → JsValue
  | null : JsValue
  | undef : JsValue
deriving DecidableEq

/-- A spreadsheet row: an object mapping header names to values, in header
order (built in loadSpreadsheetData by `sheet.headerValues.forEach`). -/
abbrev Row := List (String × JsValue)

/-- Property access `row[column]`: the first binding for the name, or
JavaScript undefined when the property is absent. -/
def rowGet (row : Row) (column : String) : JsValue :=
  match row.find? (fun p => p.1 = column) with
  | none => .undef
  | some p => p.2

/-- Whitespace characters recognised by the modelled trim / parseFloat
(the ASCII subset of the JavaScript whitespace set). -/
def isJsWhitespace (c : Char) : Bool :=
  c = ' ' || c = '\t' || c = '\n' || c = '\r'

/-- Numeric value of a list of decimal digit characters. -/
def digitsVal (cs : List Char) : Nat :=
  cs.foldl (fun acc c => acc * 10 + (c.toNat - '0'.toNat)) 0

/-- Shared numeric-literal scanner: consumes an optional sign, integer
digits, and an optional fraction part, returning the value and the
unconsumed remainder; fails when no digit appears. -/
def scanNumber (cs : List Char) : Option (JsNum × List Char) :=
  let (sign, cs1) : Int × List Char :=
    match cs with
    | '-' :: t => (-1, t)
    | '+' :: t => (1, t)
    | _ => (1, cs)
  let intPart := cs1.takeWhile Char.isDigit
  let rest1 := cs1.dropWhile Char.isDigit
  let (fracPart, rest2) : List Char × List Char :=
    match rest1 with
    | '.' :: t => (t.takeWhile Char.isDigit, t.dropWhile Char.isDigit)
    | _ => ([], rest1)
  if intPart.isEmpty && fracPart.isEmpty then
    none
  else
    some (⟨sign * ((digitsVal intPart : Int) * (10 : Int) ^ fracPart.length
      + (digitsVal fracPart : Int)), fracPart.length⟩, rest2)

/-- JavaScript parseFloat on a string: skip leading whitespace, read the
longest numeric literal, ignore trailing garbage; NaN is `none`. -/
def strParseFloat (s : String) : Option JsNum :=
  match scanNumber (s.data.dropWhile isJsWhitespace) with
  | some (q, _) => some q
  | none => none

/-- JavaScript ToNumber on a string: whitespace-trimmed empty string is 0;
otherwise the whole trimmed string must be a numeric literal, else NaN. -/
def strToNumber (s : String) : Option JsNum :=
  let cs := (s.data.dropWhile isJsWhitespace).reverse.dropWhile isJsWhitespace |>.reverse
  if cs.isEmpty then some (JsNum.ofInt 0)
  else
    match scanNumber cs with
    | some (q, []) => some q
    | _ => none

/-- JavaScript ToNumber on a value; `none` is NaN. -/
def jsToNumber : JsValue → Option JsNum
  | .num q => some q
  | .str s => strToNumber s
  | .bool b => some (JsNum.ofInt (if b then 1 else 0))
  | .null => some (JsNum.ofInt 0)
  | .undef => none

/-- parseFloat applied to a value (the argument is string-converted first,
so numbers pass through and booleans/null/undefined give NaN). -/
def jsParseFloat : JsValue → Option JsNum
  | .num q => some q
  | .str s => strParseFloat s
  | _ => none

/-- Decimal rendering of mant / 10 ^ exp: the digit string of the
magnitude with the decimal point placed exp digits from the right,
trailing fraction zeros and redundant leading zeros removed, matching
JavaScript String() on such numbers. -/
def JsNum.render (n : JsNum) : String :=
  let digits := toString n.mant.natAbs
  let digits := (List.replicate (n.exp + 1 - digits.length) '0').asString ++ digits
  let intDigits := (digits.data.take (digits.length - n.exp)).dropWhile (· = '0')
  let intDigits := if intDigits.isEmpty then ['0'] else intDigits
  let fracDigits := (digits.data.drop (digits.length - n.exp)).reverse.dropWhile (· = '0') |>.reverse
  (if n.mant < 0 && (n.mant.natAbs % 10 ^ n.exp ≠ 0 || intDigits ≠ ['0']) then "-" else "")
    ++ intDigits.asString
    ++ (if fracDigits.isEmpty then "" else "." ++ fracDigits.asString)

/-- JavaScript String(value). -/
def jsToString : JsValue → String
  | .str s => s
  | .num q => q.render
  | .bool b => if b then "true" else "false"
  | .null => "null"
  | .undef => "undefined"

/-- JavaScript toLowerCase (character-wise). -/
def jsToLower (s : String) : String :=
  ⟨s.data.map Char.toLower⟩

/-- JavaScript String.prototype.includes: substring occurrence. -/
def jsIncludes (s t : String) : Bool :=
  decide (t.data <:+: s.data)

/-- JavaScript loose equality (==) over the modelled value kinds. -/
def looseEq : JsValue → JsValue → Bool
  | .str a, .str b => a = b
  | .num a, .num b => a.eqv b
  | .bool a, .bool b => a = b
  | .null, .null => true
  | .null, .undef => true
  | .undef, .null => true
  | .undef, .undef => true
  | .num a, .str s => (strToNumber s).elim false (fun x => x.eqv a)
  | .str s, .num a => (strToNumber s).elim false (fun x => x.eqv a)
  | .bool b, .num a => (JsNum.ofInt (if b then 1 else 0)).eqv a
  | .num a, .bool b => a.eqv (JsNum.ofInt (if b then 1 else 0))
  | .bool b, .str s => (strToNumber s).elim false (fun x => x.eqv (JsNum.ofInt (if b then 1 else 0)))
  | .str s, .bool b => (strToNumber s).elim false (fun x => (JsNum.ofInt (if b then 1 else 0)).eqv x)
  | _, _ => false

/-- Lexicographic order on character lists by Unicode scalar value. -/
def charListLt : List Char → List Char → Bool
  | [], [] => false
  | [], _ :: _ => true
  | _ :: _, [] => false
  | a :: as, b :: bs =>
    if a.toNat < b.toNat then true
    else if b.toNat < a.toNat then false
    else charListLt as bs

/-- JavaScript abstract relational comparison x < y: lexicographic when
both operands are strings, else numeric with NaN making it false. -/
def jsLt (a b : JsValue) : Bool :=
  match a, b with
  | .str x, .str y => charListLt x.data y.data
  | _, _ =>
    match jsToNumber a, jsToNumber b with
    | some x, some y => x.lt y
    | _, _ => false

/-- JavaScript x > y, which is the relational comparison y < x. -/
def jsGt (a b : JsValue) : Bool := jsLt b a

/-! ## SEOAgent.executeDataOperations -/

/-- One filter clause of an inferred data plan. -/
structure FilterClause where
  column : String
  operator : String
  value : JsValue
deriving DecidableEq

/-- The sortBy field of an inferred data plan. -/
structure SortSpec where
  column : String
  desc : Bool
deriving DecidableEq

/-- The data plan inferred for the SEO agent.  An absent or empty filters
array, an absent or empty (falsy) groupBy, an absent sortBy and a falsy
limit each disable the corresponding step; absent optional fields are the
`none` / `[]` cases. -/
structure DataPlan where
  filters : List FilterClause
  groupBy : Option String
  sortBy : Option SortSpec
  limit : Option Int
deriving DecidableEq

/-- The body of the row-filter callback: keep the row when the clause
holds; an operator outside the five known ones (the switch default) keeps
the row. -/
def evalFilter (f : FilterClause) (row : Row) : Bool :=
  let value := rowGet row f.column
  if f.operator = "==" then looseEq value f.value
  else if f.operator = "!=" then ! looseEq value f.value
  else if f.operator = ">" then
    match jsParseFloat value, jsParseFloat f.value with
    | some x, some y => y.lt x
    | _, _ => false
  else if f.operator = "<" then
    match jsParseFloat value, jsParseFloat f.value with
    | some x, some y => x.lt y
    | _, _ => false
  else if f.operator = "contains" then
    jsIncludes (jsToLower (jsToString value)) (jsToLower (jsToString f.value))
  else true

/-- The filter loop: each clause filters the surviving rows in turn. -/
def applyFilters (filters : List FilterClause) (rows : List Row) : List Row :=
  filters.foldl (fun result f => result.filter (fun row => evalFilter f row)) rows

/-- A record of the result list after the optional group step: either a
plain row, or a group record {[groupBy]: key, count, items}. -/
inductive ResultRec where
  | row : Row → ResultRec
  | group : (groupCol : String) → (key : String) → (count : Nat) → (items : List Row) → ResultRec
deriving DecidableEq

/-- Property access on a result record.  On a group record the later
literal properties shadow the computed one; the items array is not a
modelled value kind, so reading it gives undefined — relational
comparisons against it are false, as they are in JavaScript for the
arrays of row objects that occur here. -/
def ResultRec.get : ResultRec → String → JsValue
  | .group gcol key count _items, c =>
    if c = "items" then .undef
    else if c = "count" then .num (JsNum.ofInt count)
    else if c = gcol then .str key
    else .undef
  | .row r, c => rowGet r c

/-- Decimal reading of a string of digits; `none` when the string is
empty or holds a non-digit. -/
def strToNat? (s : String) : Option Nat :=
  if ! s.data.isEmpty && s.data.all Char.isDigit then some (digitsVal s.data) else none

/-- Whether a string is a canonical array-index-like object key (such keys
are enumerated first and in ascending numeric order by Object.entries). -/
def isArrayIndexKey (s : String) : Bool :=
  match strToNat? s with
  | some n => toString n = s && n < 4294967295
  | none => false

/-- Insert an element into a list, before the first element it compares
le to (the insertion step of a stable insertion sort). -/
def insertSorted (le : α → α → Bool) (x : α) : List α → List α
  | [] => [x]
  | y :: ys => if le x y then x :: y :: ys else y :: insertSorted le x ys

/-- A stable insertion sort: for a consistent comparator this computes
the unique stable sort, which is what ECMAScript specifies for
Array.prototype.sort. -/
def insertionSort (le : α → α → Bool) : List α → List α
  | [] => []
  | x :: xs => insertSorted le x (insertionSort le xs)

/-- The object property keys produced by inserting the group keys in row
order, in Object.entries enumeration order: array-index-like keys in
ascending numeric order first, then the remaining keys in insertion
order. -/
def entriesKeyOrder (keys : List String) : List String :=
  let keys := keys.eraseDups
  let idxKeys := keys.filter isArrayIndexKey
  let strKeys := keys.filter (fun k => ! isArrayIndexKey k)
  insertionSort (fun a b => (strToNat? a).getD 0 ≤ (strToNat? b).getD 0) idxKeys ++ strKeys

/-- The group step: partition the rows by the string-converted value of
the groupBy column (object keys are strings) and replace the flat list by
one group record per key. -/
def groupRows (gcol : String) (rows : List Row) : List ResultRec :=
  (entriesKeyOrder (rows.map (fun r => jsToString (rowGet r gcol)))).map (fun key =>
    let items := rows.filter (fun r => jsToString (rowGet r gcol) = key)
    .group gcol key items.length items)

/-- The sort comparator over result records: 1 / -1 / 0 from the raw
JavaScript comparisons of the sort column's values, negated by desc. -/
def sortComparison (spec : SortSpec) (a b : ResultRec) : Int :=
  let c : Int := if jsGt (a.get spec.column) (b.get spec.column) then 1
    else if jsLt (a.get spec.column) (b.get spec.column) then -1 else 0
  if spec.desc then -c else c

/-- The sort step: a stable sort by the comparator (Array.prototype.sort
is stable; for comparators that are not consistent the JavaScript result
order is implementation-defined, and a deterministic stable sort is one
valid refinement). -/
def sortRecords (spec : SortSpec) (records : List ResultRec) : List ResultRec :=
  insertionSort (fun a b => sortComparison spec a b ≤ 0) records

/-- Array.prototype.slice(0, n): the first n records for n ≥ 0, all but
the last -n records for n < 0. -/
def jsSlice (l : List ResultRec) (n : Int) : List ResultRec :=
  if n < 0 then l.take ((l.length : Int) + n).toNat
  else l.take n.toNat

/-- The result payload of executeDataOperations: the echoed plan, the
record count and the records. -/
structure OpsResult where
  plan : DataPlan
  resultCount : Nat
  results : List ResultRec
deriving DecidableEq

/-- SEOAgent.executeDataOperations: filter, then optionally group, then
optionally sort, then optionally truncate; the guards mirror the source's
truthiness tests (an empty filters array and an empty-string groupBy are
skipped; a limit of 0 is falsy and skipped). -/
def executeDataOperations (data : List Row) (plan : DataPlan) : OpsResult :=
  let result := data
  let result := if plan.filters.length > 0 then applyFilters plan.filters result else result
  let records : List ResultRec :=
    match plan.groupBy with
    | some gcol => if gcol ≠ "" then groupRows gcol result else result.map .row
    | none => result.map .row
  let records :=
    match plan.sortBy with
    | some spec => sortRecords spec records
    | none => records
  let records :=
    match plan.limit with
    | some n => if n ≠ 0 then jsSlice records n else records
    | none => records
  { plan := plan, resultCount := records.length, results := records }

/-! ## AnalyticsAgent -/

/-- The allowlist of valid GA4 metrics. -/
def VALID_METRICS : List String :=
  ["activeUsers", "sessions", "screenPageViews", "eventCount", "conversions",
   "totalRevenue", "averageSessionDuration", "bounceRate", "engagementRate",
   "newUsers", "userEngagementDuration", "sessionConversionRate"]

/-- The allowlist of valid GA4 dimensions. -/
def VALID_DIMENSIONS : List String :=
  ["date", "pagePath", "pageTitle", "country", "city", "deviceCategory",
   "browser", "operatingSystem", "sessionSource", "sessionMedium",
   "sessionCampaignName", "landingPage", "eventName"]

/-- The inferred GA4 reporting plan, restricted to the fields the
validator inspects; the date ranges, ordering and limit flow through to
the fetch request unvalidated and do not affect any modelled claim. -/
structure ReportingPlan where
  metrics : List String
  dimensions : List String
deriving DecidableEq

/-- The error message thrown for an out-of-allowlist metric. -/
def invalidMetricMsg (metric : String) : String :=
  "Invalid metric: " ++ metric ++ ". Must be one of: " ++ String.intercalate ", " VALID_METRICS

/-- The error message thrown for an out-of-allowlist dimension. -/
def invalidDimensionMsg (dimension : String) : String :=
  "Invalid dimension: " ++ dimension ++ ". Must be one of: " ++ String.intercalate ", " VALID_DIMENSIONS

/-- The metric loop of validateFields: throw at the first metric outside
the allowlist. -/
def validateMetrics : List String → Except String Unit
  | [] => .ok ()
  | m :: rest =>
    if m ∈ VALID_METRICS then validateMetrics rest
    else .error (invalidMetricMsg m)

/-- The dimension loop of validateFields. -/
def validateDimensions : List String → Except String Unit
  | [] => .ok ()
  | d :: rest =>
    if d ∈ VALID_DIMENSIONS then validateDimensions rest
    else .error (invalidDimensionMsg d)

/-- AnalyticsAgent.validateFields: all metrics, then all dimensions. -/
def validateFields (plan : ReportingPlan) : Except String Unit := do
  validateMetrics plan.metrics
  validateDimensions plan.dimensions

/-- The opaque GA4 report payload (rows and headers as returned by
runReport); its structure is irrelevant to the modelled claims. -/
abbrev GA4Data := List (List String)

/-- AgentResult of the analytics agent. -/
structure AnalyticsResponse where
  success : Bool
  data : Option GA4Data
  explanation : String
  error : Option String
deriving DecidableEq

/-- The failure conversion in AnalyticsAgent.processQuery's catch. -/
def mkAnalyticsFailure (msg : String) : AnalyticsResponse :=
  { success := false, data := none,
    explanation := "Failed to process analytics query: " ++ msg, error := some msg }

/-- The effectful steps of the analytics agent as oracles: plan inference
and explanation call the LLM gateway, the fetch calls the GA4 API; each
either returns a value or throws. -/
structure AnalyticsEnv where
  inferReportingPlan : Except String ReportingPlan
  executeGA4Query : ReportingPlan → Except String GA4Data
  generateExplanation : ReportingPlan → GA4Data → Except String String

/-- AnalyticsAgent.processQuery: infer plan, validate, fetch, explain,
with every thrown error caught and converted to a failure result.  The
second component records whether the GA4 fetch was invoked. -/
def analyticsProcessQuery (env : AnalyticsEnv) : AnalyticsResponse × Bool :=
  match env.inferReportingPlan with
  | .error e => (mkAnalyticsFailure e, false)
  | .ok plan =>
    match validateFields plan with
    | .error e => (mkAnalyticsFailure e, false)
    | .ok _ =>
      match env.executeGA4Query plan with
      | .error e => (mkAnalyticsFailure e, true)
      | .ok data =>
        match env.generateExplanation plan data with
        | .error e => (mkAnalyticsFailure e, true)
        | .ok expl =>
          ({ success := true, data := some data, explanation := expl, error := none }, true)

/-! ## SEOAgent.processQuery -/

/-- The SEO agent's query input. -/
structure SEOQuery where
  query : String
  spreadsheetId : Option String
deriving DecidableEq

/-- AgentResult of the SEO agent. -/
structure SEOResponse where
  success : Bool
  data : Option OpsResult
  explanation : String
  error : Option String
deriving DecidableEq

/-- The failure conversion in SEOAgent.processQuery's catch. -/
def mkSEOFailure (msg : String) : SEOResponse :=
  { success := false, data := none,
    explanation := "Failed to process SEO query: " ++ msg, error := some msg }

/-- The effectful steps of the SEO agent as oracles, plus the
SEO_SPREADSHEET_ID environment variable. -/
structure SEOEnv where
  envSpreadsheetId : Option String
  loadSpreadsheetData : String → Except String (List Row)
  inferDataPlan : String → List Row → Except String DataPlan
  generateExplanation : String → OpsResult → Except String String

/-- The resolution `query.spreadsheetId || process.env.SEO_SPREADSHEET_ID`
followed by the falsiness check that throws: the resolved id, or `none`
when both are absent or empty. -/
def resolveSpreadsheetId (qid envid : Option String) : Option String :=
  if (qid.getD "") ≠ "" then qid
  else if (envid.getD "") ≠ "" then envid
  else none

/-- SEOAgent.processQuery: resolve the spreadsheet id, load the sheet,
infer a plan, execute the data operations, explain, with every thrown
error caught and converted to a failure result. -/
def seoProcessQuery (env : SEOEnv) (q : SEOQuery) : SEOResponse :=
  match resolveSpreadsheetId q.spreadsheetId env.envSpreadsheetId with
  | none => mkSEOFailure "No spreadsheet ID provided. Set SEO_SPREADSHEET_ID or include in request."
  | some sid =>
    match env.loadSpreadsheetData sid with
    | .error e => mkSEOFailure e
    | .ok sheetData =>
      match env.inferDataPlan q.query sheetData with
      | .error e => mkSEOFailure e
      | .ok plan =>
        let results := executeDataOperations sheetData plan
        match env.generateExplanation q.query results with
        | .error e => mkSEOFailure e
        | .ok expl => { success := true, data := some results, explanation := expl, error := none }

/-! ## Orchestrator -/

/-- The inbound query request. -/
structure QueryRequest where
  query : String
  propertyId : Option String
  spreadsheetId : Option String
deriving DecidableEq

/-- JavaScript trim (over the modelled whitespace set). -/
def jsTrim (s : String) : String :=
  ⟨(s.data.dropWhile isJsWhitespace).reverse.dropWhile isJsWhitespace |>.reverse⟩

/-- The post-gateway part of Orchestrator.detectIntent: normalise the
classifier reply, accept one of the three labels, otherwise apply the
fallback policy.  `response` is the raw gateway reply. -/
def detectIntentFromReply (response query : String) (propertyId : Option String) : String :=
  let hasPropertyId := (propertyId.getD "") ≠ ""
  let intent := jsToLower (jsTrim response)
  if intent = "analytics" || intent = "seo" || intent = "both" then intent
  else if hasPropertyId then "analytics"
  else if jsIncludes (jsToLower query) "seo" || jsIncludes (jsToLower query) "title"
      || jsIncludes (jsToLower query) "meta" then "seo"
  else "analytics"

/-- The data payload of the "both" branch: the analytics data when that
branch succeeded (else null), and the SEO data. -/
structure BothData where
  analytics : Option GA4Data
  seo : Option OpsResult
deriving DecidableEq

/-- The response assembled by routeToBoth (metadata is attached later by
processQuery and is not part of this branch). -/
structure BothResponse where
  success : Bool
  response : String
  data : BothData
deriving DecidableEq

/-- Orchestrator.routeToBoth: run the analytics agent when propertyId is
truthy, otherwise synthesize a failed analytics result locally; always
run the SEO agent; aggregate both explanations through the gateway.  The
two trailing booleans record whether the analytics agent and the SEO
agent were invoked. -/
def routeToBoth (req : QueryRequest)
    (analyticsAgent : String → String → AnalyticsResponse)
    (seoAgent : SEOQuery → SEOResponse)
    (aggregate : String → AnalyticsResponse → SEOResponse → String) :
    BothResponse × Bool × Bool :=
  let (analyticsResult, analyticsCalled) :=
    match req.propertyId with
    | some pid =>
      if pid ≠ "" then (analyticsAgent pid req.query, true)
      else ({ success := false, data := none,
              explanation := "No propertyId provided", error := some "Missing propertyId" }, false)
    | none => ({ success := false, data := none,
                 explanation := "No propertyId provided", error := some "Missing propertyId" }, false)
  let seoResult := seoAgent { query := req.query, spreadsheetId := req.spreadsheetId }
  let aggregated := aggregate req.query analyticsResult seoResult
  ({ success := analyticsResult.success && seoResult.success,
     response := aggregated,
     data := { analytics := if analyticsResult.success then analyticsResult.data else none,
               seo := seoResult.data } },
   analyticsCalled, true)

/-! ## LiteLLMClient.chat -/

/-- What one fetch of the chat completions endpoint does: a 429
rate-limit response, a non-ok response with status and body (which makes
the loop throw and catch an error), a thrown transient failure, or an ok
response whose extracted content is returned. -/
inductive AttemptOutcome where
  | rateLimited : AttemptOutcome
  | httpError : Nat → String → AttemptOutcome
  | netError : String → AttemptOutcome
  | success : String → AttemptOutcome
deriving DecidableEq

/-- Retry bound of the gateway client. -/
def MAX_RETRIES : Nat := 3

/-- The message of the error a non-ok response makes the loop throw. -/
def liteLLMApiErrorMsg (status : Nat) (body : String) : String :=
  "LiteLLM API error (" ++ toString status ++ "): " ++ body

/-- The exhaustion message: the attempt bound and `lastError?.message`,
which renders as the string "undefined" when no attempt threw. -/
def liteLLMExhaustedMsg (lastError : Option String) : String :=
  "LiteLLM failed after " ++ toString MAX_RETRIES ++ " attempts: " ++ lastError.getD "undefined"

/-- The retry loop of LiteLLMClient.chat, recursing on the number of
remaining attempts (MAX_RETRIES minus the attempt index, so the loop
guard `attempt < MAX_RETRIES` is the non-zero case): a 429 backs off and
retries without touching lastError; a thrown failure is caught into
lastError and retried; an ok response returns its content; exhaustion
throws the final message.  The second component is the attempt counter
when the loop exits, i.e. the number of attempts made.  (The backoff only
delays; it does not affect the result and is not modelled.) -/
def chatGo (oracle : Nat → AttemptOutcome) :
    Nat → Nat → Option String → Except String String × Nat
  | 0, attempt, lastError => (.error (liteLLMExhaustedMsg lastError), attempt)
  | remaining + 1, attempt, lastError =>
    match oracle attempt with
    | .success content => (.ok content, attempt + 1)
    | .rateLimited => chatGo oracle remaining (attempt + 1) lastError
    | .httpError status body =>
      chatGo oracle remaining (attempt + 1) (some (liteLLMApiErrorMsg status body))
    | .netError msg => chatGo oracle remaining (attempt + 1) (some msg)

/-- LiteLLMClient.chat, given what each fetch attempt would do. -/
def liteLLMChat (oracle : Nat → AttemptOutcome) : Except String String × Nat :=
  chatGo oracle MAX_RETRIES 0 none

/-- Whether an attempt returns generated text. -/
def isSuccessOutcome : AttemptOutcome → Bool
  | .success _ => true
  | _ => false

/-- The message of the error an attempt outcome throws, if it throws one
(rate-limit responses throw nothing: they back off and retry). -/
def outcomeThrownMsg : AttemptOutcome → Option String
  | .httpError status body => some (liteLLMApiErrorMsg status body)
  | .netError m => some m
  | _ => none

/-- The lastError accumulator over a window of attempts: the message of
the last outcome that threw, else the initial value. -/
def foldThrown (oracle : Nat → AttemptOutcome) : Nat → Nat → Option String → Option String
  | _, 0, acc => acc
  | start, len + 1, acc =>
    foldThrown oracle (start + 1) len
      (match outcomeThrownMsg (oracle start) with
       | some m => some m
       | none => acc)

/-- The message of the last error thrown across the retry window, when
any attempt threw one. -/
def lastThrownError (oracle : Nat → AttemptOutcome) : Option String :=
  foldThrown oracle 0 MAX_RETRIES none

/-! ## Helper lemmas -/

/-- The clause-by-clause filter loop equals a single pass that keeps a row
exactly when every clause holds for it. -/
theorem applyFilters_eq_filter (filters : List FilterClause) (rows : List Row) :
    applyFilters filters rows
      = rows.filter fun row => filters.all fun f => evalFilter f row := by
  induction filters generalizing rows with
  | nil => simp [applyFilters]
  | cons f fs ih =>
    have hstep : applyFilters (f :: fs) rows
        = applyFilters fs (rows.filter fun row => evalFilter f row) := rfl
    rw [hstep, ih, List.filter_filter]
    exact List.filter_congr fun a _ => by simp [List.all_cons, Bool.and_comm]

/-- A stable insertion sort leaves a list untouched when consecutive
elements already compare le. -/
theorem insertionSort_of_pairwise {α : Type} (le : α → α → Bool) (l : List α)
    (h : l.Pairwise fun a b => le a b = true) : insertionSort le l = l := by
  induction l with
  | nil => rfl
  | cons x xs ih =>
    rw [List.pairwise_cons] at h
    have hxs : insertionSort le xs = xs := ih h.2
    show insertSorted le x (insertionSort le xs) = x :: xs
    rw [hxs]
    cases xs with
    | nil => rfl
    | cons y ys =>
      have hy : le x y = true := h.1 y (List.mem_cons_self y ys)
      simp [insertSorted, hy]

end SpikeAI

namespace SpikeAI

/-! ## Claim C3: detectIntent fallback policy -/

/-- C3: when the normalised classifier reply is none of the three valid
labels, detectIntent falls back to "analytics" whenever propertyId is
truthy; otherwise to "seo" when the lowercased question contains one of
the keywords "seo", "title", "meta"; otherwise to "analytics" — and the
fallback always yields one of the three intents, raising nothing. -/
theorem detectIntent_fallback_policy (response query : String) (propertyId : Option String)
    (hinvalid : jsToLower (jsTrim response) ≠ "analytics"
      ∧ jsToLower (jsTrim response) ≠ "seo" ∧ jsToLower (jsTrim response) ≠ "both") :
    detectIntentFromReply response query propertyId
      = (if (propertyId.getD "") ≠ "" then "analytics"
         else if jsIncludes (jsToLower query) "seo" || jsIncludes (jsToLower query) "title"
             || jsIncludes (jsToLower query) "meta" then "seo"
         else "analytics")
    ∧ (detectIntentFromReply response query propertyId = "analytics"
      ∨ detectIntentFromReply response query propertyId = "seo"
      ∨ detectIntentFromReply response query propertyId = "both") := by
  obtain ⟨h1, h2, h3⟩ := hinvalid
  have hfall : detectIntentFromReply response query propertyId
      = (if (propertyId.getD "") ≠ "" then "analytics"
         else if jsIncludes (jsToLower query) "seo" || jsIncludes (jsToLower query) "title"
             || jsIncludes (jsToLower query) "meta" then "seo"
         else "analytics") := by
    simp only [detectIntentFromReply, h1, h2, h3]
    simp
  refine ⟨hfall, ?_⟩
  rw [hfall]
  by_cases hp : (propertyId.getD "") ≠ "" <;>
    by_cases hk : (jsIncludes (jsToLower query) "seo" || jsIncludes (jsToLower query) "title"
      || jsIncludes (jsToLower query) "meta") = true <;>
    simp [hp, hk]

/-- Concrete run of the fallback: an unrecognised reply with a propertyId
present classifies as "analytics" regardless of SEO keywords in the
question. -/
theorem detectIntent_fallback_policy_witness :
    detectIntentFromReply "I think this is about SEO titles" "check my title tags" (some "123456")
      = "analytics" := by
  have h := detectIntent_fallback_policy "I think this is about SEO titles" "check my title tags"
    (some "123456") (by refine ⟨?_, ?_, ?_⟩ <;> decide)
  simpa using h.1

/-! ## Claim C9: filter idempotence -/

/-- C9: applying the same filter clause list twice yields the same rows as
applying it once. -/
theorem applyFilters_idempotent (filters : List FilterClause) (rows : List Row) :
    applyFilters filters (applyFilters filters rows) = applyFilters filters rows := by
  simp only [applyFilters_eq_filter, List.filter_filter]
  exact List.filter_congr fun a _ => Bool.and_self _

/-! ## Claim C10: limit semantics (corrected) -/

/-- The limit step in isolation: the records of a run with some limit
against the records of the same run with the limit removed. -/
theorem executeDataOperations_limit_step (data : List Row) (plan : DataPlan) :
    (executeDataOperations data plan).results
      = (match plan.limit with
         | some n =>
           if n ≠ 0 then jsSlice (executeDataOperations data { plan with limit := none }).results n
           else (executeDataOperations data { plan with limit := none }).results
         | none => (executeDataOperations data { plan with limit := none }).results) := by
  cases plan with
  | mk filters groupBy sortBy limit => cases limit <;> rfl

/-- C10 (amended): a falsy limit (absent, null or 0) performs no
truncation; a positive limit n keeps the first n records; a negative
limit n — also truthy — still truncates, to all but the last |n| records
(Array.prototype.slice semantics). -/
theorem limit_semantics (data : List Row) (plan : DataPlan) :
    ((plan.limit = none ∨ plan.limit = some 0) →
      (executeDataOperations data plan).results
        = (executeDataOperations data { plan with limit := none }).results)
    ∧ (∀ n : Int, plan.limit = some n → 0 < n →
      (executeDataOperations data plan).results
        = (executeDataOperations data { plan with limit := none }).results.take n.toNat)
    ∧ (∀ n : Int, plan.limit = some n → n < 0 →
      (executeDataOperations data plan).results
        = (executeDataOperations data { plan with limit := none }).results.take
            (((executeDataOperations data { plan with limit := none }).results.length : Int) + n).toNat) := by
  refine ⟨?_, ?_, ?_⟩
  · rintro (h | h)
    · rw [executeDataOperations_limit_step, h]
    · rw [executeDataOperations_limit_step, h]
      simp
  · intro n hn hpos
    rw [executeDataOperations_limit_step, hn]
    have hne : n ≠ 0 := by omega
    have hnneg : ¬ n < 0 := by omega
    simp [hne, jsSlice, hnneg]
  · intro n hn hneg
    rw [executeDataOperations_limit_step, hn]
    have hne : n ≠ 0 := by omega
    simp [hne, jsSlice, hneg]

/-- The input refuting C10 as stated: a limit of -1 is truthy but not
positive, yet the result is truncated (2 records in, 1 out). -/
theorem limit_negative_truncates_counterexample :
    (executeDataOperations [[("a", JsValue.str "1")], [("a", JsValue.str "2")]]
        { filters := [], groupBy := none, sortBy := none, limit := some (-1) }).results
      = [ResultRec.row [("a", JsValue.str "1")]]
    ∧ ¬ (0 : Int) < -1 := by
  exact ⟨rfl, by decide⟩

/-- Concrete run of the amended limit semantics: limit 0 is falsy and
returns all records. -/
theorem limit_semantics_witness :
    (executeDataOperations [[("a", JsValue.str "1")], [("a", JsValue.str "2")]]
        { filters := [], groupBy := none, sortBy := none, limit := some 0 }).results
      = (executeDataOperations [[("a", JsValue.str "1")], [("a", JsValue.str "2")]]
          { filters := [], groupBy := none, sortBy := none, limit := none }).results :=
  (limit_semantics [[("a", JsValue.str "1")], [("a", JsValue.str "2")]]
    { filters := [], groupBy := none, sortBy := none, limit := some 0 }).1 (Or.inr rfl)

/-! ## Claim C4: filter operator semantics -/

/-- C4: the filter step applies the clauses in order and keeps a row
exactly when every clause holds; "==" and "!=" are loose equality and its
negation, ">" and "<" hold exactly when both sides coerce numerically
(parseFloat) and compare, "contains" holds exactly when the string-coerced
lowercased clause value occurs inside the string-coerced lowercased cell,
and any other operator keeps the row. -/
theorem filter_operator_semantics :
    (∀ (filters : List FilterClause) (rows : List Row),
      applyFilters filters rows = rows.filter fun row => filters.all fun f => evalFilter f row)
    ∧ (∀ (c : String) (v : JsValue) (row : Row),
      evalFilter ⟨c, "==", v⟩ row = looseEq (rowGet row c) v
      ∧ evalFilter ⟨c, "!=", v⟩ row = ! looseEq (rowGet row c) v
      ∧ (evalFilter ⟨c, ">", v⟩ row = true
          ↔ ∃ x y, jsParseFloat (rowGet row c) = some x ∧ jsParseFloat v = some y ∧ y.lt x)
      ∧ (evalFilter ⟨c, "<", v⟩ row = true
          ↔ ∃ x y, jsParseFloat (rowGet row c) = some x ∧ jsParseFloat v = some y ∧ x.lt y)
      ∧ (evalFilter ⟨c, "contains", v⟩ row = true
          ↔ (jsToLower (jsToString v)).data <:+: (jsToLower (jsToString (rowGet row c))).data))
    ∧ (∀ (f : FilterClause) (row : Row),
      f.operator ≠ "==" → f.operator ≠ "!=" → f.operator ≠ ">" → f.operator ≠ "<" →
      f.operator ≠ "contains" → evalFilter f row = true) := by
  refine ⟨applyFilters_eq_filter, ?_, ?_⟩
  · intro c v row
    refine ⟨rfl, rfl, ?_, ?_, ?_⟩
    · show (match jsParseFloat (rowGet row c), jsParseFloat v with
        | some x, some y => JsNum.lt y x
        | _, _ => false) = true ↔ _
      cases hx : jsParseFloat (rowGet row c) <;> cases hy : jsParseFloat v <;> simp
    · show (match jsParseFloat (rowGet row c), jsParseFloat v with
        | some x, some y => JsNum.lt x y
        | _, _ => false) = true ↔ _
      cases hx : jsParseFloat (rowGet row c) <;> cases hy : jsParseFloat v <;> simp
    · show jsIncludes (jsToLower (jsToString (rowGet row c))) (jsToLower (jsToString v)) = true ↔ _
      simp [jsIncludes]
  · intro f row h1 h2 h3 h4 h5
    simp [evalFilter, h1, h2, h3, h4, h5]

/-- Concrete runs of the filter semantics: an unknown operator keeps a
row that names no such column, and a ">" clause holds through numeric
coercion of both sides. -/
theorem filter_operator_semantics_witness :
    evalFilter ⟨"score", "between", JsValue.null⟩ [("score", JsValue.str "5")] = true
    ∧ (∃ x y, jsParseFloat (rowGet [("score", JsValue.str "5")] "score") = some x
        ∧ jsParseFloat (JsValue.str "3") = some y ∧ JsNum.lt y x) :=
  ⟨filter_operator_semantics.2.2 ⟨"score", "between", JsValue.null⟩ [("score", JsValue.str "5")]
      (by decide) (by decide) (by decide) (by decide) (by decide),
    (filter_operator_semantics.2.1 "score" (JsValue.str "3")
      [("score", JsValue.str "5")]).2.2.1.mp (by decide)⟩

/-! ## Claim C5: filter clauses naming an absent column (corrected) -/

/-- looseEq against undefined is false except for null/undefined. -/
theorem looseEq_undef_left (v : JsValue) (h1 : v ≠ JsValue.null) (h2 : v ≠ JsValue.undef) :
    looseEq JsValue.undef v = false := by
  cases v <;> simp_all [looseEq]

/-- The input refuting C5 as stated: a "!=" clause naming an absent
column keeps every row (undefined != "https" is true), so the clause does
not yield "no matches". -/
theorem missing_column_matches_counterexample :
    applyFilters [⟨"Protocol", "!=", JsValue.str "https"⟩] [[("Address", JsValue.str "https://a.com")]]
      = [[("Address", JsValue.str "https://a.com")]]
    ∧ rowGet [("Address", JsValue.str "https://a.com")] "Protocol" = JsValue.undef := by
  exact ⟨rfl, rfl⟩

/-- C5 (amended): a clause naming a column absent from every row never
raises; it yields no matches under ">", "<" and (for a non-null,
non-undefined comparison value) "==", but under "!=" every row passes. -/
theorem missing_column_semantics (rows : List Row) (col : String) (v : JsValue)
    (habs : ∀ r ∈ rows, rowGet r col = JsValue.undef) :
    applyFilters [⟨col, ">", v⟩] rows = []
    ∧ applyFilters [⟨col, "<", v⟩] rows = []
    ∧ (v ≠ JsValue.null → v ≠ JsValue.undef →
      applyFilters [⟨col, "==", v⟩] rows = []
      ∧ applyFilters [⟨col, "!=", v⟩] rows = rows) := by
  have hsingle : ∀ f : FilterClause,
      applyFilters [f] rows = rows.filter fun r => evalFilter f r := by
    intro f
    rw [applyFilters_eq_filter]
    exact List.filter_congr fun r _ => by simp
  refine ⟨?_, ?_, fun hnull hundef => ⟨?_, ?_⟩⟩
  · rw [hsingle, List.filter_eq_nil_iff]
    intro r hr
    simp [evalFilter, habs r hr, jsParseFloat]
  · rw [hsingle, List.filter_eq_nil_iff]
    intro r hr
    simp [evalFilter, habs r hr, jsParseFloat]
  · rw [hsingle, List.filter_eq_nil_iff]
    intro r hr
    simp [evalFilter, habs r hr, looseEq_undef_left v hnull hundef]
  · rw [hsingle, List.filter_eq_self]
    intro r hr
    simp [evalFilter, habs r hr, looseEq_undef_left v hnull hundef]

/-- Concrete run of the amended missing-column semantics: "==" against an
absent column drops the row, "!=" keeps it. -/
theorem missing_column_semantics_witness :
    applyFilters [⟨"b", "==", JsValue.str "q"⟩] [[("a", JsValue.str "x")]] = []
    ∧ applyFilters [⟨"b", "!=", JsValue.str "q"⟩] [[("a", JsValue.str "x")]]
      = [[("a", JsValue.str "x")]] :=
  (missing_column_semantics [[("a", JsValue.str "x")]] "b" (JsValue.str "q")
    (by decide)).2.2 (by decide) (by decide)

/-! ## More helper lemmas -/

/-- A substring occurrence makes jsIncludes true. -/
theorem jsIncludes_of_substring {s t : String} (h : t.data <:+: s.data) : jsIncludes s t = true := by
  simp [jsIncludes, h]

/-- A list with an out-of-allowlist metric makes the metric loop throw
the invalid-metric message of some offending metric. -/
theorem validateMetrics_error_of (l : List String) (h : ∃ m ∈ l, m ∉ VALID_METRICS) :
    ∃ bad ∈ l, bad ∉ VALID_METRICS ∧ validateMetrics l = .error (invalidMetricMsg bad) := by
  induction l with
  | nil => obtain ⟨m, hm, _⟩ := h; cases hm
  | cons a t ih =>
    obtain ⟨m, hm, hnot⟩ := h
    by_cases ha : a ∈ VALID_METRICS
    · have hmt : m ∈ t := by
        rcases List.mem_cons.mp hm with h | h
        · subst h; exact absurd ha hnot
        · exact h
      obtain ⟨bad, hb, hnb, herr⟩ := ih ⟨m, hmt, hnot⟩
      exact ⟨bad, List.mem_cons_of_mem _ hb, hnb, by simp [validateMetrics, ha, herr]⟩
    · exact ⟨a, List.mem_cons_self a t, ha, by simp [validateMetrics, ha]⟩

/-- A list of allowlisted metrics passes the metric loop. -/
theorem validateMetrics_ok_of (l : List String) (h : ∀ m ∈ l, m ∈ VALID_METRICS) :
    validateMetrics l = .ok () := by
  induction l with
  | nil => rfl
  | cons a t ih =>
    have ha := h a (List.mem_cons_self a t)
    simp [validateMetrics, ha, ih fun m hm => h m (List.mem_cons_of_mem _ hm)]

/-- A list with an out-of-allowlist dimension makes the dimension loop
throw the invalid-dimension message of some offending dimension. -/
theorem validateDimensions_error_of (l : List String) (h : ∃ d ∈ l, d ∉ VALID_DIMENSIONS) :
    ∃ bad ∈ l, bad ∉ VALID_DIMENSIONS ∧ validateDimensions l = .error (invalidDimensionMsg bad) := by
  induction l with
  | nil => obtain ⟨d, hd, _⟩ := h; cases hd
  | cons a t ih =>
    obtain ⟨d, hd, hnot⟩ := h
    by_cases ha : a ∈ VALID_DIMENSIONS
    · have hdt : d ∈ t := by
        rcases List.mem_cons.mp hd with h | h
        · subst h; exact absurd ha hnot
        · exact h
      obtain ⟨bad, hb, hnb, herr⟩ := ih ⟨d, hdt, hnot⟩
      exact ⟨bad, List.mem_cons_of_mem _ hb, hnb, by simp [validateDimensions, ha, herr]⟩
    · exact ⟨a, List.mem_cons_self a t, ha, by simp [validateDimensions, ha]⟩

/-- validateFields as the two loops in sequence. -/
theorem validateFields_eq (plan : ReportingPlan) :
    validateFields plan
      = (match validateMetrics plan.metrics with
         | .error e => .error e
         | .ok _ => validateDimensions plan.dimensions) := by
  cases h : validateMetrics plan.metrics <;>
    simp [validateFields, h, Bind.bind, Except.bind]

/-! ## Claim C1: validation precedes fetch -/

/-- C1: when the inferred plan names a metric outside VALID_METRICS or a
dimension outside VALID_DIMENSIONS, validateFields throws the message
naming an offending field and the permitted set, processQuery returns
that failure, and the GA4 fetch is never invoked. -/
theorem validation_precedes_fetch (env : AnalyticsEnv) (plan : ReportingPlan)
    (hplan : env.inferReportingPlan = Except.ok plan)
    (hbad : (∃ m ∈ plan.metrics, m ∉ VALID_METRICS)
      ∨ (∃ d ∈ plan.dimensions, d ∉ VALID_DIMENSIONS)) :
    (analyticsProcessQuery env).2 = false
    ∧ ∃ msg, validateFields plan = .error msg
      ∧ (analyticsProcessQuery env).1 = mkAnalyticsFailure msg
      ∧ ((∃ bad ∈ plan.metrics, bad ∉ VALID_METRICS ∧ msg = invalidMetricMsg bad
            ∧ jsIncludes msg bad = true
            ∧ jsIncludes msg (String.intercalate ", " VALID_METRICS) = true)
        ∨ (∃ bad ∈ plan.dimensions, bad ∉ VALID_DIMENSIONS ∧ msg = invalidDimensionMsg bad
            ∧ jsIncludes msg bad = true
            ∧ jsIncludes msg (String.intercalate ", " VALID_DIMENSIONS) = true)) := by
  have hmain : ∃ msg, validateFields plan = .error msg
      ∧ ((∃ bad ∈ plan.metrics, bad ∉ VALID_METRICS ∧ msg = invalidMetricMsg bad)
        ∨ (∃ bad ∈ plan.dimensions, bad ∉ VALID_DIMENSIONS ∧ msg = invalidDimensionMsg bad)) := by
    by_cases hm : ∃ m ∈ plan.metrics, m ∉ VALID_METRICS
    · obtain ⟨bad, hb, hnb, herr⟩ := validateMetrics_error_of plan.metrics hm
      exact ⟨invalidMetricMsg bad, by rw [validateFields_eq, herr], Or.inl ⟨bad, hb, hnb, rfl⟩⟩
    · have hd : ∃ d ∈ plan.dimensions, d ∉ VALID_DIMENSIONS := hbad.resolve_left hm
      obtain ⟨bad, hb, hnb, herr⟩ := validateDimensions_error_of plan.dimensions hd
      have hok : validateMetrics plan.metrics = .ok () := by
        apply validateMetrics_ok_of
        intro m hmem
        by_contra hno
        exact hm ⟨m, hmem, hno⟩
      exact ⟨invalidDimensionMsg bad, by rw [validateFields_eq, hok, herr],
        Or.inr ⟨bad, hb, hnb, rfl⟩⟩
  obtain ⟨msg, hverr, hcases⟩ := hmain
  have hq : analyticsProcessQuery env = (mkAnalyticsFailure msg, false) := by
    simp [analyticsProcessQuery, hplan, hverr]
  have hincm : ∀ bad : String, jsIncludes (invalidMetricMsg bad) bad = true := by
    intro bad
    apply jsIncludes_of_substring
    exact ⟨"Invalid metric: ".data,
      (". Must be one of: " ++ String.intercalate ", " VALID_METRICS).data,
      by simp [invalidMetricMsg, String.data_append]⟩
  have hincms : ∀ bad : String,
      jsIncludes (invalidMetricMsg bad) (String.intercalate ", " VALID_METRICS) = true := by
    intro bad
    apply jsIncludes_of_substring
    exact ⟨("Invalid metric: " ++ bad ++ ". Must be one of: ").data, [],
      by simp [invalidMetricMsg, String.data_append]⟩
  have hincd : ∀ bad : String, jsIncludes (invalidDimensionMsg bad) bad = true := by
    intro bad
    apply jsIncludes_of_substring
    exact ⟨"Invalid dimension: ".data,
      (". Must be one of: " ++ String.intercalate ", " VALID_DIMENSIONS).data,
      by simp [invalidDimensionMsg, String.data_append]⟩
  have hincds : ∀ bad : String,
      jsIncludes (invalidDimensionMsg bad) (String.intercalate ", " VALID_DIMENSIONS) = true := by
    intro bad
    apply jsIncludes_of_substring
    exact ⟨("Invalid dimension: " ++ bad ++ ". Must be one of: ").data, [],
      by simp [invalidDimensionMsg, String.data_append]⟩
  refine ⟨by rw [hq], msg, hverr, by rw [hq], ?_⟩
  rcases hcases with ⟨bad, hb, hnb, hmsg⟩ | ⟨bad, hb, hnb, hmsg⟩
  · exact Or.inl ⟨bad, hb, hnb, hmsg, hmsg ▸ hincm bad, hmsg ▸ hincms bad⟩
  · exact Or.inr ⟨bad, hb, hnb, hmsg, hmsg ▸ hincd bad, hmsg ▸ hincds bad⟩

/-- Concrete run: a plan with the out-of-allowlist metric "pageviews"
never reaches the GA4 fetch. -/
theorem validation_precedes_fetch_witness :
    (analyticsProcessQuery
      { inferReportingPlan := Except.ok { metrics := ["pageviews"], dimensions := ["date"] },
        executeGA4Query := fun _ => Except.ok [["row"]],
        generateExplanation := fun _ _ => Except.ok "demo" }).2 = false :=
  (validation_precedes_fetch
    { inferReportingPlan := Except.ok { metrics := ["pageviews"], dimensions := ["date"] },
      executeGA4Query := fun _ => Except.ok [["row"]],
      generateExplanation := fun _ _ => Except.ok "demo" }
    { metrics := ["pageviews"], dimensions := ["date"] }
    rfl (Or.inl ⟨"pageviews", by decide, by decide⟩)).1

/-! ## Claim C2: routeToBoth without a propertyId -/

/-- C2: with intent "both" and no propertyId, the orchestrator does not
call the analytics agent, synthesizes the failed analytics result
locally, still calls the SEO agent, returns the aggregation output as the
response text (non-empty whenever the aggregation yields non-empty text),
and the overall success is the conjunction of the two branch successes,
hence false. -/
theorem routeToBoth_missing_propertyId (query : String) (sheetId : Option String)
    (analyticsAgent : String → String → AnalyticsResponse)
    (seoAgent : SEOQuery → SEOResponse)
    (aggregate : String → AnalyticsResponse → SEOResponse → String)
    (hagg : aggregate query
        { success := false, data := none,
          explanation := "No propertyId provided", error := some "Missing propertyId" }
        (seoAgent { query := query, spreadsheetId := sheetId }) ≠ "") :
    (routeToBoth { query := query, propertyId := none, spreadsheetId := sheetId }
        analyticsAgent seoAgent aggregate).2.1 = false
    ∧ (routeToBoth { query := query, propertyId := none, spreadsheetId := sheetId }
        analyticsAgent seoAgent aggregate).2.2 = true
    ∧ (routeToBoth { query := query, propertyId := none, spreadsheetId := sheetId }
        analyticsAgent seoAgent aggregate).1.response
      = aggregate query
          { success := false, data := none,
            explanation := "No propertyId provided", error := some "Missing propertyId" }
          (seoAgent { query := query, spreadsheetId := sheetId })
    ∧ (routeToBoth { query := query, propertyId := none, spreadsheetId := sheetId }
        analyticsAgent seoAgent aggregate).1.response ≠ ""
    ∧ (routeToBoth { query := query, propertyId := none, spreadsheetId := sheetId }
        analyticsAgent seoAgent aggregate).1.success
      = (false && (seoAgent { query := query, spreadsheetId := sheetId }).success)
    ∧ (routeToBoth { query := query, propertyId := none, spreadsheetId := sheetId }
        analyticsAgent seoAgent aggregate).1.success = false
    ∧ (routeToBoth { query := query, propertyId := none, spreadsheetId := sheetId }
        analyticsAgent seoAgent aggregate).1.data.analytics = none
    ∧ (routeToBoth { query := query, propertyId := none, spreadsheetId := sheetId }
        analyticsAgent seoAgent aggregate).1.data.seo
      = (seoAgent { query := query, spreadsheetId := sheetId }).data := by
  refine ⟨rfl, rfl, rfl, hagg, rfl, rfl, rfl, rfl⟩

/-- Concrete run of the "both" branch without a propertyId: the analytics
agent is not called and the overall success is false even though the SEO
branch succeeded and an aggregated response exists. -/
theorem routeToBoth_missing_propertyId_witness :
    (routeToBoth { query := "q", propertyId := none, spreadsheetId := none }
        (fun _ _ => { success := true, data := some [], explanation := "a", error := none })
        (fun _ => { success := true, data := none, explanation := "s", error := none })
        (fun _ _ _ => "combined")).1.success = false
    ∧ (routeToBoth { query := "q", propertyId := none, spreadsheetId := none }
        (fun _ _ => { success := true, data := some [], explanation := "a", error := none })
        (fun _ => { success := true, data := none, explanation := "s", error := none })
        (fun _ _ _ => "combined")).2.1 = false
    ∧ (routeToBoth { query := "q", propertyId := none, spreadsheetId := none }
        (fun _ _ => { success := true, data := some [], explanation := "a", error := none })
        (fun _ => { success := true, data := none, explanation := "s", error := none })
        (fun _ _ _ => "combined")).1.response ≠ "" := by
  have h := routeToBoth_missing_propertyId "q" none
    (fun _ _ => { success := true, data := some [], explanation := "a", error := none })
    (fun _ => { success := true, data := none, explanation := "s", error := none })
    (fun _ _ _ => "combined") (by decide)
  exact ⟨h.2.2.2.2.2.1, h.1, h.2.2.2.1⟩

/-! ## Claim C6: gateway retry exhaustion (corrected) -/

/-- The loop exits after at most `remaining` further attempts. -/
theorem chatGo_attempts_le (oracle : Nat → AttemptOutcome) :
    ∀ (remaining attempt : Nat) (lastError : Option String),
      (chatGo oracle remaining attempt lastError).2 ≤ attempt + remaining := by
  intro remaining
  induction remaining with
  | zero => intro a le; simp [chatGo]
  | succ r ih =>
    intro a le
    show (chatGo oracle (r + 1) a le).2 ≤ a + (r + 1)
    cases hoc : oracle a with
    | success c =>
      simp only [chatGo, hoc]
      omega
    | rateLimited =>
      have := ih (a + 1) le
      simp only [chatGo, hoc]
      omega
    | httpError st body =>
      have := ih (a + 1) (some (liteLLMApiErrorMsg st body))
      simp only [chatGo, hoc]
      omega
    | netError m =>
      have := ih (a + 1) (some m)
      simp only [chatGo, hoc]
      omega

/-- When no attempt in the window succeeds, the loop exhausts the window
and throws the message built from the accumulated last error. -/
theorem chatGo_exhausts (oracle : Nat → AttemptOutcome) :
    ∀ (remaining attempt : Nat) (lastError : Option String),
      (∀ i, attempt ≤ i → i < attempt + remaining → isSuccessOutcome (oracle i) = false) →
      chatGo oracle remaining attempt lastError
        = (.error (liteLLMExhaustedMsg (foldThrown oracle attempt remaining lastError)),
           attempt + remaining) := by
  intro remaining
  induction remaining with
  | zero => intro a le _; simp [chatGo, foldThrown]
  | succ r ih =>
    intro a le h
    have ha := h a (Nat.le_refl a) (by omega)
    have hnext : ∀ i, a + 1 ≤ i → i < (a + 1) + r → isSuccessOutcome (oracle i) = false := by
      intro i h1 h2
      exact h i (by omega) (by omega)
    cases hoc : oracle a with
    | success c => rw [hoc] at ha; simp [isSuccessOutcome] at ha
    | rateLimited =>
      have hrec := ih (a + 1) le hnext
      simp only [chatGo, hoc, hrec, foldThrown, outcomeThrownMsg, Prod.mk.injEq]
      exact ⟨trivial, by omega⟩
    | httpError st body =>
      have hrec := ih (a + 1) (some (liteLLMApiErrorMsg st body)) hnext
      simp only [chatGo, hoc, hrec, foldThrown, outcomeThrownMsg, Prod.mk.injEq]
      exact ⟨trivial, by omega⟩
    | netError m =>
      have hrec := ih (a + 1) (some m) hnext
      simp only [chatGo, hoc, hrec, foldThrown, outcomeThrownMsg, Prod.mk.injEq]
      exact ⟨trivial, by omega⟩

/-- The input refuting C6 as stated: three consecutive rate-limit
responses exhaust the retries, but no attempt threw an error, so the
raised message has no underlying error message to embed — it ends in the
literal "undefined". -/
theorem gateway_rateLimit_only_counterexample :
    (liteLLMChat fun _ => AttemptOutcome.rateLimited).1
      = Except.error "LiteLLM failed after 3 attempts: undefined"
    ∧ lastThrownError (fun _ => AttemptOutcome.rateLimited) = none :=
  ⟨rfl, rfl⟩

/-- C6 (amended): chat makes at most 3 attempts; when all 3 fail it
raises a message embedding the attempt count and the message of the last
thrown error when some attempt threw one (rate-limit responses throw
none; if no attempt threw, the literal "undefined" stands in its
place). -/
theorem gateway_retry_exhaustion (oracle : Nat → AttemptOutcome)
    (h : ∀ i, i < MAX_RETRIES → isSuccessOutcome (oracle i) = false) :
    (∀ g : Nat → AttemptOutcome, (liteLLMChat g).2 ≤ MAX_RETRIES)
    ∧ (liteLLMChat oracle).2 = MAX_RETRIES
    ∧ (liteLLMChat oracle).1 = .error (liteLLMExhaustedMsg (lastThrownError oracle))
    ∧ jsIncludes (liteLLMExhaustedMsg (lastThrownError oracle)) (toString MAX_RETRIES) = true
    ∧ ∀ m, lastThrownError oracle = some m →
        jsIncludes (liteLLMExhaustedMsg (lastThrownError oracle)) m = true := by
  have hrun := chatGo_exhausts oracle MAX_RETRIES 0 none
    (fun i _ hi => h i (by omega))
  refine ⟨fun g => chatGo_attempts_le g MAX_RETRIES 0 none, ?_, ?_, ?_, ?_⟩
  · show (chatGo oracle MAX_RETRIES 0 none).2 = MAX_RETRIES
    rw [hrun]
    rfl
  · show (chatGo oracle MAX_RETRIES 0 none).1 = _
    rw [hrun]
    rfl
  · apply jsIncludes_of_substring
    exact ⟨"LiteLLM failed after ".data,
      (" attempts: " ++ (lastThrownError oracle).getD "undefined").data,
      by simp [liteLLMExhaustedMsg, String.data_append]⟩
  · intro m hm
    apply jsIncludes_of_substring
    refine ⟨("LiteLLM failed after " ++ toString MAX_RETRIES ++ " attempts: ").data, [], ?_⟩
    simp [liteLLMExhaustedMsg, hm, String.data_append]

/-- Concrete run of the amended exhaustion behavior: three transient
failures raise the exhaustion message carrying the last failure's
message. -/
theorem gateway_retry_exhaustion_witness :
    (liteLLMChat fun _ => AttemptOutcome.netError "boom").1
      = Except.error (liteLLMExhaustedMsg (lastThrownError fun _ => AttemptOutcome.netError "boom")) :=
  (gateway_retry_exhaustion (fun _ => AttemptOutcome.netError "boom") (fun _ _ => rfl)).2.2.1

/-! ## Claim C7: agents catch every step failure -/

/-- C7: for every combination of step outcomes, each agent's processQuery
returns a well-formed result: either full success with no error field, or
exactly the failure shape {success:false, explanation: failure-context
message, error: message}; in this total model no exception can escape. -/
theorem agents_catch_all_failures :
    (∀ env : AnalyticsEnv,
      ((analyticsProcessQuery env).1.success = true ∧ (analyticsProcessQuery env).1.error = none)
      ∨ ∃ m, (analyticsProcessQuery env).1 = mkAnalyticsFailure m)
    ∧ (∀ (env : SEOEnv) (q : SEOQuery),
      ((seoProcessQuery env q).success = true ∧ (seoProcessQuery env q).error = none)
      ∨ ∃ m, seoProcessQuery env q = mkSEOFailure m) := by
  constructor
  · intro env
    cases h1 : env.inferReportingPlan with
    | error e => exact Or.inr ⟨e, by simp [analyticsProcessQuery, h1]⟩
    | ok plan =>
      cases h2 : validateFields plan with
      | error e => exact Or.inr ⟨e, by simp [analyticsProcessQuery, h1, h2]⟩
      | ok u =>
        cases h3 : env.executeGA4Query plan with
        | error e => exact Or.inr ⟨e, by simp [analyticsProcessQuery, h1, h2, h3]⟩
        | ok data =>
          cases h4 : env.generateExplanation plan data with
          | error e => exact Or.inr ⟨e, by simp [analyticsProcessQuery, h1, h2, h3, h4]⟩
          | ok expl => exact Or.inl ⟨by simp [analyticsProcessQuery, h1, h2, h3, h4],
              by simp [analyticsProcessQuery, h1, h2, h3, h4]⟩
  · intro env q
    cases h1 : resolveSpreadsheetId q.spreadsheetId env.envSpreadsheetId with
    | none =>
      exact Or.inr ⟨"No spreadsheet ID provided. Set SEO_SPREADSHEET_ID or include in request.",
        by simp [seoProcessQuery, h1]⟩
    | some sid =>
      cases h2 : env.loadSpreadsheetData sid with
      | error e => exact Or.inr ⟨e, by simp [seoProcessQuery, h1, h2]⟩
      | ok sheetData =>
        cases h3 : env.inferDataPlan q.query sheetData with
        | error e => exact Or.inr ⟨e, by simp [seoProcessQuery, h1, h2, h3]⟩
        | ok plan =>
          cases h4 : env.generateExplanation q.query (executeDataOperations sheetData plan) with
          | error e => exact Or.inr ⟨e, by simp [seoProcessQuery, h1, h2, h3, h4]⟩
          | ok expl => exact Or.inl ⟨by simp [seoProcessQuery, h1, h2, h3, h4],
              by simp [seoProcessQuery, h1, h2, h3, h4]⟩

/-! ## Claim C8: determinism and sort-tie stability -/

/-- A pairwise relation holds for any list all of whose element pairs
satisfy it. -/
theorem pairwise_of_forall_mem {α : Type} {R : α → α → Prop} :
    ∀ l : List α, (∀ a ∈ l, ∀ b ∈ l, R a b) → l.Pairwise R := by
  intro l
  induction l with
  | nil => intro _; exact List.Pairwise.nil
  | cons x xs ih =>
    intro h
    refine List.Pairwise.cons ?_ (ih ?_)
    · intro b hb
      exact h x (List.mem_cons_self x xs) b (List.mem_cons_of_mem _ hb)
    · intro a ha b hb
      exact h a (List.mem_cons_of_mem _ ha) b (List.mem_cons_of_mem _ hb)

/-- Inserting an element leaves the existing elements as an in-order
sublist. -/
theorem sublist_insertSorted {α : Type} (le : α → α → Bool) (x : α) :
    ∀ l : List α, l.Sublist (insertSorted le x l) := by
  intro l
  induction l with
  | nil => simp [insertSorted]
  | cons y ys ih =>
    by_cases hxy : le x y = true
    · simp only [insertSorted, hxy, if_pos]
      exact List.sublist_cons_self x (y :: ys)
    · simp only [insertSorted, hxy, if_neg, Bool.not_eq_true]
      exact List.Sublist.cons₂ y ih

/-- A permutation fact: inserting places the element somewhere in the
list and moves nothing else. -/
theorem insertSorted_perm {α : Type} (le : α → α → Bool) (x : α) :
    ∀ l : List α, (insertSorted le x l).Perm (x :: l) := by
  intro l
  induction l with
  | nil => exact List.Perm.refl [x]
  | cons y ys ih =>
    by_cases hxy : le x y = true
    · simp only [insertSorted, hxy, if_pos]
      exact List.Perm.refl _
    · simp only [insertSorted, hxy, if_neg, Bool.not_eq_true]
      exact (List.Perm.cons y ih).trans (List.Perm.swap x y ys)

/-- The insertion sort permutes its input. -/
theorem insertionSort_perm {α : Type} (le : α → α → Bool) :
    ∀ l : List α, (insertionSort le l).Perm l := by
  intro l
  induction l with
  | nil => exact List.Perm.refl []
  | cons x xs ih =>
    exact (insertSorted_perm le x (insertionSort le xs)).trans (List.Perm.cons x ih)

/-- An inserted element lands before every present element it compares
le to. -/
theorem pair_sublist_insertSorted {α : Type} (le : α → α → Bool) (x b : α) :
    ∀ l : List α, b ∈ l → le x b = true →
      [x, b].Sublist (insertSorted le x l) := by
  intro l
  induction l with
  | nil => intro hb _; cases hb
  | cons y ys ih =>
    intro hb hxb
    by_cases hxy : le x y = true
    · simp only [insertSorted, hxy, if_pos]
      exact List.Sublist.cons₂ x (List.singleton_sublist.mpr hb)
    · simp only [insertSorted, hxy, if_neg, Bool.not_eq_true]
      cases List.mem_cons.mp hb with
      | inl heq => exact absurd (heq ▸ hxb) hxy
      | inr htail => exact List.Sublist.cons y (ih htail hxb)

/-- Stability of the stable insertion sort, with no assumption on the
comparator: an ordered pair of the input whose left element compares le
to the right one stays in that order in the output. -/
theorem pair_sublist_insertionSort {α : Type} (le : α → α → Bool) (a b : α) :
    ∀ l : List α, [a, b].Sublist l → le a b = true →
      [a, b].Sublist (insertionSort le l) := by
  intro l
  induction l with
  | nil => intro h _; cases h
  | cons x xs ih =>
    intro h hab
    cases h with
    | cons _ htail =>
      exact (ih htail hab).trans (sublist_insertSorted le x (insertionSort le xs))
    | cons₂ _ htail =>
      refine pair_sublist_insertSorted le a b (insertionSort le xs) ?_ hab
      exact ((insertionSort_perm le xs).mem_iff).mpr (List.singleton_sublist.mp htail)

/-- C8: execute-operations is a pure function — identical inputs give
identical outputs — the sort step returns a record list unchanged when
consecutive records already compare ≤ 0 (in particular when every pair of
sort keys ties), and two records whose sort keys tie (the comparator
returning 0) keep their relative input order through the sort. -/
theorem executeOps_deterministic_and_sort_stable :
    (∀ (data : List Row) (plan : DataPlan),
      executeDataOperations data plan = executeDataOperations data plan)
    ∧ (∀ (spec : SortSpec) (records : List ResultRec),
      records.Pairwise (fun a b => sortComparison spec a b ≤ 0) →
      sortRecords spec records = records)
    ∧ (∀ (spec : SortSpec) (records : List ResultRec),
      (∀ a ∈ records, ∀ b ∈ records, sortComparison spec a b = 0) →
      sortRecords spec records = records)
    ∧ (∀ (spec : SortSpec) (records : List ResultRec) (a b : ResultRec),
      [a, b].Sublist records → sortComparison spec a b = 0 →
      [a, b].Sublist (sortRecords spec records)) := by
  have hsorted : ∀ (spec : SortSpec) (records : List ResultRec),
      records.Pairwise (fun a b => sortComparison spec a b ≤ 0) →
      sortRecords spec records = records := by
    intro spec records h
    apply insertionSort_of_pairwise
    exact h.imp fun hab => by simpa using hab
  refine ⟨fun _ _ => rfl, hsorted, ?_, ?_⟩
  · intro spec records h
    apply hsorted
    apply pairwise_of_forall_mem
    intro a ha b hb
    exact le_of_eq (h a ha b hb)
  · intro spec records a b hsub htie
    exact pair_sublist_insertionSort _ a b records hsub (by simp [htie])

/-- Concrete run of sort-tie stability: two records with equal sort keys
keep their input order through a descending sort. -/
theorem executeOps_sort_stable_witness :
    [ResultRec.row [("k", JsValue.str "same"), ("id", JsValue.str "first")],
     ResultRec.row [("k", JsValue.str "same"), ("id", JsValue.str "second")]].Sublist
      (sortRecords ⟨"k", true⟩
        [ResultRec.row [("k", JsValue.str "same"), ("id", JsValue.str "first")],
         ResultRec.row [("k", JsValue.str "same"), ("id", JsValue.str "second")]]) :=
  executeOps_deterministic_and_sort_stable.2.2.2 ⟨"k", true⟩
    [ResultRec.row [("k", JsValue.str "same"), ("id", JsValue.str "first")],
     ResultRec.row [("k", JsValue.str "same"), ("id", JsValue.str "second")]]
    (ResultRec.row [("k", JsValue.str "same"), ("id", JsValue.str "first")])
    (ResultRec.row [("k", JsValue.str "same"), ("id", JsValue.str "second")])
    (List.Sublist.refl _) (by decide)

end SpikeAI
